import Mathlib

/-!
Shallow embedding of the point-of-sale ledger of src/pos_sys_v2.py.

The SQLite store is modelled as three lists kept in rowid (insertion) order
together with the autoincrement counters; every POSDatabase method becomes a
pure function on that state.  SQLite INTEGER columns are modelled as Int
(stock, price, quantity, total_price) and rowids as Nat.  Timestamps
(created_at from CURRENT_TIMESTAMP, sale_time from get_current_time) have
one-second resolution in the source, so they are modelled as Nat values
supplied by the caller as a clock reading: distinct insertions may carry the
same timestamp.  An ORDER BY on such a column is modelled as a stable sort
(List.insertionSort), which returns rows with equal keys in rowid order,
matching the full-scan behaviour of the embedded store on these queries.
-/

namespace PosSys

/-- Row of the events table: events(id, name, date, created_at). -/
structure Event where
  id : Nat
  name : String
  date : String
  created_at : Nat
  deriving DecidableEq, Repr

/-- Row of the products table: products(id, event_id, name, stock, price). -/
structure Product where
  id : Nat
  event_id : Nat
  name : String
  stock : Int
  price : Int
  deriving DecidableEq, Repr

/-- Row of the sales table:
sales(id, event_id, product_id, quantity, total_price, sale_time, cancelled). -/
structure Sale where
  id : Nat
  event_id : Nat
  product_id : Nat
  quantity : Int
  total_price : Int
  sale_time : Nat
  cancelled : Bool
  deriving DecidableEq, Repr

/-- The whole database file: the three tables in rowid order plus the
autoincrement counters (AUTOINCREMENT hands out 1, 2, ...). -/
structure DB where
  events : List Event
  products : List Product
  sales : List Sale
  next_event_id : Nat
  next_product_id : Nat
  next_sale_id : Nat
  deriving DecidableEq, Repr

/-- A freshly initialised database (init_database creates empty tables). -/
def DB.empty : DB := ⟨[], [], [], 1, 1, 1⟩

/-- POSDatabase.create_event: INSERT INTO events (name, date) VALUES (?, ?)
and return lastrowid.  created_at takes the store's current clock reading. -/
def create_event (name date : String) (now : Nat) (db : DB) : Nat × DB :=
  let eid := db.next_event_id
  (eid, { db with
            events := db.events ++ [⟨eid, name, date, now⟩],
            next_event_id := eid + 1 })

/-- Newest-first order on events: ORDER BY created_at DESC. -/
def eventNewer (a b : Event) : Prop := b.created_at ≤ a.created_at

instance : DecidableRel eventNewer := fun a b => Nat.decLe _ _

/-- POSDatabase.get_events: SELECT id, name, date FROM events
ORDER BY created_at DESC.  Rows with equal created_at (events created within
the same second) come back in rowid order, as the stable sort of a full scan. -/
def get_events (db : DB) : List (Nat × String × String) :=
  (db.events.insertionSort eventNewer).map fun e => (e.id, e.name, e.date)

/-- POSDatabase.add_product: INSERT INTO products (event_id, name, price,
stock) VALUES (?, ?, ?, ?) and return lastrowid. -/
def add_product (event_id : Nat) (name : String) (price stock : Int)
    (db : DB) : Nat × DB :=
  let pid := db.next_product_id
  (pid, { db with
            products := db.products ++ [⟨pid, event_id, name, stock, price⟩],
            next_product_id := pid + 1 })

/-- POSDatabase.delete_product: count the sales rows with this product_id and
cancelled = FALSE; if any exist return False without touching the table,
otherwise DELETE FROM products WHERE id = ? and report rowcount > 0. -/
def delete_product (product_id : Nat) (db : DB) : Bool × DB :=
  let sales_count :=
    (db.sales.filter fun s => s.product_id == product_id && !s.cancelled).length
  if sales_count > 0 then
    (false, db)
  else
    let remaining := db.products.filter fun p => p.id != product_id
    (remaining.length < db.products.length, { db with products := remaining })

/-- POSDatabase.record_sale: INSERT INTO sales (event_id, product_id,
quantity, total_price, sale_time) VALUES (?, ?, ?, ?, ?) with sale_time the
core's current clock reading; cancelled takes its column default 0. -/
def record_sale (event_id product_id : Nat) (quantity total_price : Int)
    (now : Nat) (db : DB) : Nat × DB :=
  let sid := db.next_sale_id
  (sid, { db with
            sales := db.sales ++
              [⟨sid, event_id, product_id, quantity, total_price, now, false⟩],
            next_sale_id := sid + 1 })

/-- One row's change under UPDATE products SET stock = stock + ? WHERE id = ?:
the delta is applied unconditionally, with no non-negativity guard. -/
def apply_stock_change (product_id : Nat) (delta : Int) (p : Product) : Product :=
  if p.id = product_id then { p with stock := p.stock + delta } else p

/-- POSDatabase.update_stock: UPDATE products SET stock = stock + ?
WHERE id = ?; returns rowcount > 0, i.e. whether a product row matched. -/
def update_stock (product_id : Nat) (quantity_change : Int) (db : DB) : Bool × DB :=
  (db.products.any fun p => p.id == product_id,
   { db with products := db.products.map (apply_stock_change product_id quantity_change) })

/-- Stock of the first products row with this id, 0 when none matches
(SELECT stock FROM products WHERE id = ? with a fetchone fallback of 0). -/
def stock_of (product_id : Nat) (l : List Product) : Int :=
  match l.find? fun p => p.id == product_id with
  | some p => p.stock
  | none => 0

/-- POSDatabase.get_product_stock. -/
def get_product_stock (product_id : Nat) (db : DB) : Int :=
  stock_of product_id db.products

/-- One row's change under UPDATE sales SET cancelled = TRUE WHERE id = ?. -/
def set_cancelled (sale_id : Nat) (s : Sale) : Sale :=
  if s.id = sale_id then { s with cancelled := true } else s

/-- POSDatabase.cancel_sale: UPDATE sales SET cancelled = TRUE WHERE id = ?;
returns rowcount > 0.  The store counts every row matched by the WHERE
clause, so a sale that is already cancelled still counts. -/
def cancel_sale (sale_id : Nat) (db : DB) : Bool × DB :=
  (db.sales.any fun s => s.id == sale_id,
   { db with sales := db.sales.map (set_cancelled sale_id) })

/-- Newest-first order on sales: ORDER BY sale_time DESC. -/
def saleNewer (a b : Sale) : Prop := b.sale_time ≤ a.sale_time

instance : DecidableRel saleNewer := fun a b => Nat.decLe _ _

/-- LIMIT ?: a negative limit means no limit in the embedded store. -/
def sqlLimit {α : Type} (limit : Int) (l : List α) : List α :=
  if limit < 0 then l else l.take limit.toNat

/-- POSDatabase.get_recent_sales: sales of the event inner-joined with
products on s.product_id = p.id (a sale whose product row was deleted is
dropped by the join), ORDER BY sale_time DESC, LIMIT ?. -/
def get_recent_sales (event_id : Nat) (limit : Int) (db : DB) :
    List (Nat × String × Int × Int × Nat × Bool) :=
  sqlLimit limit <|
    ((db.sales.filter fun s => s.event_id == event_id).insertionSort saleNewer).filterMap
      fun s => (db.products.find? fun p => p.id == s.product_id).map
        fun p => (s.id, p.name, s.quantity, s.total_price, s.sale_time, s.cancelled)

/-- POSDatabase.get_sales_summary: SUM(total_price), SUM(quantity) and
COUNT(*) over the event's sales with cancelled = FALSE (COALESCE turns the
empty sums into 0). -/
def get_sales_summary (event_id : Nat) (db : DB) : Int × Int × Nat :=
  let rows := db.sales.filter fun s => s.event_id == event_id && !s.cancelled
  ((rows.map Sale.total_price).sum, (rows.map Sale.quantity).sum, rows.length)

/-- One output row of get_product_sales_summary:
(p.name, SUM(s.quantity), SUM(s.total_price), p.price). -/
structure SummaryRow where
  name : String
  total_quantity : Int
  total_sales : Int
  price : Int
  deriving DecidableEq, Repr

/-- The aggregate row the LEFT JOIN .. GROUP BY p.id produces for product p:
its non-cancelled sales rows are matched on product_id alone (the join
condition is p.id = s.product_id AND s.cancelled = FALSE), and a product with
no such sales gets COALESCE'd zeros. -/
def product_row (db : DB) (p : Product) : SummaryRow :=
  let ss := db.sales.filter fun s => s.product_id == p.id && !s.cancelled
  ⟨p.name, (ss.map Sale.quantity).sum, (ss.map Sale.total_price).sum, p.price⟩

/-- ORDER BY total_sales DESC, p.name: revenue descending, name ascending. -/
def rowOrder (a b : SummaryRow) : Prop :=
  b.total_sales < a.total_sales ∨ (a.total_sales = b.total_sales ∧ a.name ≤ b.name)

instance : DecidableRel rowOrder := fun a b =>
  inferInstanceAs (Decidable (_ ∨ _))

/-- POSDatabase.get_product_sales_summary: one aggregate row per product of
the event, ordered by revenue descending then name ascending. -/
def get_product_sales_summary (event_id : Nat) (db : DB) : List SummaryRow :=
  ((db.products.filter fun p => p.event_id == event_id).map (product_row db)).insertionSort
    rowOrder

/-! ## The cart (POSApp.cart_items and POSApp.add_to_cart) -/

/-- One staged cart line: (product_id, name, price, quantity). -/
structure CartItem where
  product_id : Nat
  name : String
  price : Int
  quantity : Int
  deriving DecidableEq, Repr

/-- The failures POSApp.add_to_cart reports via an error dialog: a
non-positive quantity, or the staged quantity exceeding the product's stock
(the message carries the available stock). -/
inductive CartError where
  | validationError
  | insufficientStock (stock : Int)
  deriving DecidableEq, Repr

/-- The quantity already staged for a product:
sum(item[3] for item in cart_items if item[0] == product_id). -/
def cart_staged_qty (cart : List CartItem) (product_id : Nat) : Int :=
  ((cart.filter fun i => i.product_id == product_id).map CartItem.quantity).sum

/-- The merge loop of add_to_cart: the first line with this product_id gets
its quantity summed (and name/price rewritten from the arguments, as the
source tuple assignment does); with no such line the new line is appended. -/
def cart_merge (product_id : Nat) (name : String) (price quantity : Int) :
    List CartItem → List CartItem
  | [] => [⟨product_id, name, price, quantity⟩]
  | i :: rest =>
    if i.product_id = product_id then
      ⟨product_id, name, price, i.quantity + quantity⟩ :: rest
    else
      i :: cart_merge product_id name price quantity rest

/-- POSApp.add_to_cart on one product row: reject quantity ≤ 0; reject when
the staged quantity plus the new quantity exceeds the product's stock,
reporting that stock; otherwise merge into the cart. -/
def add_to_cart (cart : List CartItem) (product_id : Nat) (name : String)
    (price stock quantity : Int) : Except CartError (List CartItem) :=
  if quantity ≤ 0 then
    Except.error CartError.validationError
  else if cart_staged_qty cart product_id + quantity > stock then
    Except.error (CartError.insufficientStock stock)
  else
    Except.ok (cart_merge product_id name price quantity cart)

/-! ## Event-creation validation (EventDialog.create_event) -/

/-- Decimal value of a digit string. -/
def natOfDigits (s : String) : Nat :=
  s.foldl (fun n c => n * 10 + (c.toNat - 48)) 0

/-- Gregorian leap year, as datetime uses. -/
def isLeap (y : Nat) : Bool :=
  y % 4 == 0 && (y % 100 != 0 || y % 400 == 0)

/-- Length of a month, as datetime validates the day against. -/
def daysInMonth (y m : Nat) : Nat :=
  if m = 2 then (if isLeap y then 29 else 28)
  else if m = 4 ∨ m = 6 ∨ m = 9 ∨ m = 11 then 30
  else 31

/-- datetime.strptime(date, "%Y-%m-%d") succeeding: the string is three
dash-separated digit groups, the year exactly four digits and at least 1,
month and day one or two digits, month 1..12 and day 1..daysInMonth. -/
def valid_date (s : String) : Bool :=
  match s.splitOn "-" with
  | [ys, ms, ds] =>
    decide (ys.length = 4) && ys.all Char.isDigit &&
    decide (1 ≤ ms.length ∧ ms.length ≤ 2) && ms.all Char.isDigit &&
    decide (1 ≤ ds.length ∧ ds.length ≤ 2) && ds.all Char.isDigit &&
    (let y := natOfDigits ys
     let m := natOfDigits ms
     let d := natOfDigits ds
     decide (1 ≤ y ∧ 1 ≤ m ∧ m ≤ 12 ∧ 1 ≤ d ∧ d ≤ daysInMonth y m))
  | _ => false

/-- The failure EventDialog.create_event reports before anything reaches the
store: an empty event name or a date strptime rejects. -/
inductive PosError where
  | validationError
  deriving DecidableEq, Repr

/-- EventDialog.create_event's input validation: both fields stripped, the
name must be non-empty and the date must parse as %Y-%m-%d; only then does
the dialog hand (name, date) on. -/
def dialog_validate (name date : String) : Option (String × String) :=
  let n := name.trim
  let d := date.trim
  if n = "" then none
  else if valid_date d then some (n, d)
  else none

/-- The full createEvent flow the spec describes: EventDialog.create_event's
validation (which fails before any storage mutation) followed by
POSDatabase.create_event on the validated input. -/
def createEventFlow (name date : String) (now : Nat) (db : DB) :
    Except PosError Nat × DB :=
  match dialog_validate name date with
  | none => (Except.error PosError.validationError, db)
  | some nd => ((create_event nd.1 nd.2 now db).1 |> Except.ok,
                (create_event nd.1 nd.2 now db).2)

end PosSys

namespace PosSys

/-! ## Helper lemmas -/

theorem apply_stock_change_id (pid : Nat) (delta : Int) (p : Product) :
    (apply_stock_change pid delta p).id = p.id := by
  unfold apply_stock_change
  split <;> rfl

theorem stock_of_cons (pid : Nat) (a : Product) (t : List Product) :
    stock_of pid (a :: t) = if a.id = pid then a.stock else stock_of pid t := by
  by_cases h : a.id = pid
  · rw [if_pos h]
    unfold stock_of
    rw [List.find?_cons_of_pos _ (by simp [h])]
  · rw [if_neg h]
    unfold stock_of
    rw [List.find?_cons_of_neg _ (by simp [h])]

/-- Applying a stock delta moves the looked-up stock by exactly that delta,
as long as a row with the product id exists. -/
theorem stock_of_update (pid : Nat) (delta : Int) :
    ∀ l : List Product, (∃ p ∈ l, p.id = pid) →
      stock_of pid (List.map (apply_stock_change pid delta) l) =
        stock_of pid l + delta := by
  intro l
  induction l with
  | nil =>
    rintro ⟨p, hp, -⟩
    exact absurd hp (List.not_mem_nil p)
  | cons a t ih =>
    rintro ⟨p, hp, hpid⟩
    rw [List.map_cons, stock_of_cons, stock_of_cons]
    by_cases ha : a.id = pid
    · rw [if_pos (by rw [apply_stock_change_id]; exact ha), if_pos ha]
      unfold apply_stock_change
      rw [if_pos ha]
    · rw [if_neg (by rw [apply_stock_change_id]; exact ha), if_neg ha]
      apply ih
      rcases List.mem_cons.mp hp with rfl | hmem
      · exact absurd hpid ha
      · exact ⟨p, hmem, hpid⟩

/-! ## C1 -/

/-- The state reached by: create an event, add a product with stock 3, then
adjust stock by -5 (a delta larger in magnitude than the current stock). -/
def c1_db : DB :=
  (update_stock 1 (-5)
    (add_product 1 "Sticker" 300 3
      (create_event "Spring Fair" "2024-05-01" 0 DB.empty).2).2).2

/-- C1 counterexample: the Ledger Core neither rejects nor clamps a stock
adjustment that drives stock negative.  From stock 3, update_stock with
delta -5 reports success and leaves the product's stock at -2 < 0, so the
non-negativity invariant does not hold at the business-rule layer. -/
theorem C1_counterexample_stock_goes_negative :
    (update_stock 1 (-5)
      (add_product 1 "Sticker" 300 3
        (create_event "Spring Fair" "2024-05-01" 0 DB.empty).2).2).1 = true ∧
    get_product_stock 1 c1_db = -2 ∧ get_product_stock 1 c1_db < 0 := by
  decide

/-- C1 (amended): update_stock applies its delta unconditionally, so the
stock invariant holds only for pre-validated calls: when the product exists,
its stock is non-negative and the delta is at least the negated stock (as the
Cart Aggregator guarantees by checking quantity against stock before
checkout), the new stock equals old stock plus delta and stays non-negative. -/
theorem C1_validated_adjust_keeps_stock_nonneg (pid : Nat) (delta : Int)
    (db : DB) (hex : ∃ p ∈ db.products, p.id = pid)
    (hnn : 0 ≤ get_product_stock pid db)
    (hpre : -(get_product_stock pid db) ≤ delta) :
    get_product_stock pid (update_stock pid delta db).2 =
      get_product_stock pid db + delta ∧
    0 ≤ get_product_stock pid (update_stock pid delta db).2 := by
  have h : get_product_stock pid (update_stock pid delta db).2 =
      get_product_stock pid db + delta :=
    stock_of_update pid delta db.products hex
  exact ⟨h, by rw [h]; linarith⟩

/-- The state with one product (id 1, stock 3) used to witness C1. -/
def c1_base : DB :=
  (add_product 1 "Sticker" 300 3
    (create_event "Spring Fair" "2024-05-01" 0 DB.empty).2).2

/-- Witness for C1: from stock 3, the validated adjustment -2 leaves stock
1 ≥ 0. -/
theorem C1_witness :
    get_product_stock 1 (update_stock 1 (-2) c1_base).2 =
      get_product_stock 1 c1_base + (-2) ∧
    0 ≤ get_product_stock 1 (update_stock 1 (-2) c1_base).2 :=
  C1_validated_adjust_keeps_stock_nonneg 1 (-2) c1_base
    ⟨⟨1, 1, "Sticker", 3, 300⟩, by decide, rfl⟩ (by decide) (by decide)

/-! ## C2 -/

/-- The state reached by: create an event, add a product, record one sale
(id 1), then cancel it once. -/
def c2_db : DB :=
  (record_sale 1 1 2 600 1
    (add_product 1 "Sticker" 300 3
      (create_event "Spring Fair" "2024-05-01" 0 DB.empty).2).2).2

/-- C2 counterexample: after sale 1 is cancelled (every sale row is flagged
cancelled), cancelling it a second time still returns true — the claim says a
cancel of an already-cancelled sale returns false, but the UPDATE's row count
counts the matched row regardless of its prior flag. -/
theorem C2_counterexample_double_cancel_returns_true :
    ((cancel_sale 1 c2_db).2.sales.all fun s => s.cancelled) = true ∧
    (cancel_sale 1 (cancel_sale 1 c2_db).2).1 = true := by
  decide

/-- C2 (amended): cancel_sale returns true iff a sale row with the given id
exists — even when that sale is already cancelled — and false exactly when no
such sale exists; it flags every matching sale cancelled and never inserts or
deletes sales rows. -/
theorem C2_cancel_sale_characterization (sale_id : Nat) (db : DB) :
    ((cancel_sale sale_id db).1 = true ↔ ∃ s ∈ db.sales, s.id = sale_id) ∧
    ((cancel_sale sale_id db).1 = false ↔ ∀ s ∈ db.sales, s.id ≠ sale_id) ∧
    (∀ s ∈ (cancel_sale sale_id db).2.sales, s.id = sale_id →
       s.cancelled = true) ∧
    (cancel_sale sale_id db).2.sales.length = db.sales.length := by
  refine ⟨?_, ?_, ?_, ?_⟩
  · simp [cancel_sale, List.any_eq_true]
  · simp [cancel_sale, List.any_eq_false]
  · intro s hs hid
    rcases List.mem_map.mp hs with ⟨t, ht, rfl⟩
    by_cases h : t.id = sale_id
    · simp [set_cancelled, h]
    · simp [set_cancelled, h] at hid
  · simp [cancel_sale]

/-! ## C4 -/

/-- C4 counterexample: with an empty database there is no non-cancelled sale
referencing product 1 (there are no sales at all), yet delete_product returns
false, because no product row with that id exists to delete. -/
theorem C4_counterexample_nonexistent_product :
    DB.empty.sales = [] ∧ (delete_product 1 DB.empty).1 = false := by
  decide

/-- C4 (amended): delete_product returns true iff every sale referencing the
product is cancelled AND a product row with that id exists; on true it
removes exactly the rows with that id, on false (a non-cancelled referencing
sale, or no such product row) it leaves the products table unchanged; sales
and events are never touched, and failure is the boolean return, not an
exception. -/
theorem C4_delete_product_characterization (pid : Nat) (db : DB) :
    ((delete_product pid db).1 = true ↔
       (∀ s ∈ db.sales, s.product_id = pid → s.cancelled = true) ∧
       ∃ p ∈ db.products, p.id = pid) ∧
    ((delete_product pid db).1 = true →
       (delete_product pid db).2.products =
         db.products.filter fun p => p.id != pid) ∧
    ((delete_product pid db).1 = false →
       (delete_product pid db).2.products = db.products) ∧
    (delete_product pid db).2.sales = db.sales ∧
    (delete_product pid db).2.events = db.events := by
  by_cases hc :
      (db.sales.filter fun s => s.product_id == pid && !s.cancelled).length > 0
  · obtain ⟨s, hs⟩ := List.exists_mem_of_length_pos hc
    rw [List.mem_filter] at hs
    obtain ⟨hsmem, hsq⟩ := hs
    rw [Bool.and_eq_true, beq_iff_eq, Bool.not_eq_true'] at hsq
    have hres : delete_product pid db = (false, db) := by
      simp only [delete_product, if_pos hc]
    rw [hres]
    refine ⟨⟨fun h => absurd h (by simp), ?_⟩,
           fun h => absurd h (by simp), fun _ => rfl, rfl, rfl⟩
    rintro ⟨hall, -⟩
    have h1 := hall s hsmem hsq.1
    rw [hsq.2] at h1
    exact h1
  · have hall : ∀ s ∈ db.sales, s.product_id = pid → s.cancelled = true := by
      intro s hsmem hspid
      by_contra hcan
      have hscan : s.cancelled = false := by
        revert hcan
        cases s.cancelled <;> simp
      refine hc (List.length_pos.mpr fun hnil => ?_)
      exact (List.filter_eq_nil_iff.mp hnil s hsmem) (by simp [hspid, hscan])
    have hres : delete_product pid db =
        (decide ((db.products.filter fun p => p.id != pid).length <
           db.products.length),
         { db with products := db.products.filter fun p => p.id != pid }) := by
      simp only [delete_product, if_neg hc]
    rw [hres]
    refine ⟨?_, fun _ => rfl, ?_, rfl, rfl⟩
    · rw [decide_eq_true_eq]
      constructor
      · intro h
        rcases List.length_filter_lt_length_iff_exists.mp h with ⟨p, hp, hkeep⟩
        refine ⟨hall, p, hp, ?_⟩
        simpa using hkeep
      · rintro ⟨-, p, hp, hpid⟩
        exact List.length_filter_lt_length_iff_exists.mpr
          ⟨p, hp, by simp [hpid]⟩
    · intro h
      rw [decide_eq_false_iff_not] at h
      have hkeepall : ∀ p ∈ db.products, (p.id != pid) = true := by
        intro p hp
        by_contra hne
        exact h (List.length_filter_lt_length_iff_exists.mpr ⟨p, hp, hne⟩)
      rw [List.filter_eq_self.mpr hkeepall]

/-! ## C5 -/

/-- The end-to-end state of the spec scenario: event "Spring Fair", product
"Sticker" with stock 10 and price 300, one sale of quantity 2 for 600, and
the matching stock decrement to 8. -/
def c5_db : DB :=
  (update_stock 1 (-2)
    (record_sale 1 1 2 600 1
      (add_product 1 "Sticker" 300 10
        (create_event "Spring Fair" "2024-05-01" 0 DB.empty).2).2).2).2

/-- C5: cancel_sale changes only the cancelled flag of the matching sale — it
leaves the products table (hence every stock quantity) and the events table
untouched, and preserves every other field of every sale.  In the spec's
scenario (sell 2 from stock 10, giving stock 8, then cancel) the summary
returns to (0, 0, 0) while stock stays 8: stock is not restored. -/
theorem C5_cancel_does_not_restore_stock (sale_id : Nat) (db : DB) :
    ((cancel_sale sale_id db).2.products = db.products ∧
     (cancel_sale sale_id db).2.events = db.events ∧
     (∀ pid, get_product_stock pid (cancel_sale sale_id db).2 =
        get_product_stock pid db) ∧
     ∀ s ∈ (cancel_sale sale_id db).2.sales, ∃ t ∈ db.sales,
       s.id = t.id ∧ s.event_id = t.event_id ∧ s.product_id = t.product_id ∧
       s.quantity = t.quantity ∧ s.total_price = t.total_price ∧
       s.sale_time = t.sale_time) ∧
    (get_sales_summary 1 c5_db = (600, 2, 1) ∧
     get_sales_summary 1 (cancel_sale 1 c5_db).2 = (0, 0, 0) ∧
     get_product_stock 1 c5_db = 8 ∧
     get_product_stock 1 (cancel_sale 1 c5_db).2 = 8) := by
  constructor
  · refine ⟨rfl, rfl, fun _ => rfl, ?_⟩
    intro s hs
    rcases List.mem_map.mp hs with ⟨t, ht, rfl⟩
    refine ⟨t, ht, ?_⟩
    unfold set_cancelled
    split <;> simp
  · decide

end PosSys

namespace PosSys

/-! ## C3 -/

theorem map_set_cancelled_of_not_mem (sale_id : Nat) :
    ∀ l : List Sale, (∀ s ∈ l, s.id ≠ sale_id) →
      l.map (set_cancelled sale_id) = l := by
  intro l
  induction l with
  | nil => intro _; rfl
  | cons a t ih =>
    intro h
    rw [List.map_cons, ih fun s hs => h s (List.mem_cons_of_mem a hs)]
    simp only [set_cancelled, if_neg (h a (List.mem_cons_self a t))]

/-- Flagging the sale with a given id cancelled is, for any row predicate
that drops cancelled rows, the same as erasing that sale row: the sale no
longer passes the predicate and no other row changes (ids being unique). -/
theorem filter_cancel_eq_filter_erase (sale_id : Nat) (q : Sale → Bool)
    (hq : ∀ x : Sale, q { x with cancelled := true } = false) :
    ∀ (l : List Sale) (s : Sale), s ∈ l → s.id = sale_id →
      (l.map Sale.id).Nodup →
      (l.map (set_cancelled sale_id)).filter q = (l.erase s).filter q := by
  intro l
  induction l with
  | nil =>
    intro s hs
    exact absurd hs (List.not_mem_nil s)
  | cons a t ih =>
    intro s hs hsid hnodup
    rw [List.map_cons, List.nodup_cons] at hnodup
    obtain ⟨hanotin, htnodup⟩ := hnodup
    by_cases heq : s = a
    · subst heq
      rw [List.erase_cons_head, List.map_cons]
      have h1 : set_cancelled sale_id s = { s with cancelled := true } := by
        simp only [set_cancelled, if_pos hsid]
      have h2 : t.map (set_cancelled sale_id) = t := by
        apply map_set_cancelled_of_not_mem
        intro x hx hxid
        exact hanotin (by rw [hsid, ← hxid]; exact List.mem_map_of_mem Sale.id hx)
      rw [h1, h2, List.filter_cons]
      simp [hq s]
    · have hst : s ∈ t := by
        rcases List.mem_cons.mp hs with h | h
        · exact absurd h heq
        · exact h
      have haid : a.id ≠ sale_id := by
        intro haid
        refine hanotin ?_
        rw [haid, ← hsid]
        exact List.mem_map_of_mem Sale.id hst
      have hane : ¬(a == s) = true := by
        simp only [beq_iff_eq]
        exact fun h => heq h.symm
      rw [List.map_cons, List.erase_cons_tail hane,
          List.filter_cons, List.filter_cons]
      simp only [set_cancelled, if_neg haid]
      rw [ih s hst hsid htnodup]

/-- C3: get_sales_summary and get_product_sales_summary range over the
event's non-cancelled sales only, so cancelling a sale (with sale ids
unique) makes both summaries compute exactly as if that sale row had been
erased — it is excluded from both on the next call — and a second cancel of
the same sale leaves the database state, hence all totals, unchanged. -/
theorem C3_cancel_excludes_sale_from_summaries (sale_id : Nat) (db : DB)
    (s : Sale) (hmem : s ∈ db.sales) (hid : s.id = sale_id)
    (hunc : s.cancelled = false)
    (hnodup : (db.sales.map Sale.id).Nodup) :
    (∀ ev, get_sales_summary ev (cancel_sale sale_id db).2 =
       get_sales_summary ev { db with sales := db.sales.erase s }) ∧
    (∀ ev, get_product_sales_summary ev (cancel_sale sale_id db).2 =
       get_product_sales_summary ev { db with sales := db.sales.erase s }) ∧
    (cancel_sale sale_id (cancel_sale sale_id db).2).2 =
      (cancel_sale sale_id db).2 := by
  have key : ∀ q : Sale → Bool,
      (∀ x : Sale, q { x with cancelled := true } = false) →
      (db.sales.map (set_cancelled sale_id)).filter q =
        (db.sales.erase s).filter q :=
    fun q hq => filter_cancel_eq_filter_erase sale_id q hq db.sales s hmem hid hnodup
  refine ⟨?_, ?_, ?_⟩
  · intro ev
    simp only [get_sales_summary, cancel_sale]
    rw [key _ fun x => by simp]
  · intro ev
    simp only [get_product_sales_summary]
    congr 1
    apply List.map_congr_left
    intro p hp
    simp only [product_row, cancel_sale]
    rw [key _ fun x => by simp]
  · show ({ db with
        sales := (db.sales.map (set_cancelled sale_id)).map
          (set_cancelled sale_id) } : DB) =
      { db with sales := db.sales.map (set_cancelled sale_id) }
    rw [List.map_map]
    congr 1
    apply List.map_congr_left
    intro x hx
    simp only [Function.comp_apply, set_cancelled]
    by_cases h : x.id = sale_id
    · simp [h]
    · simp [h]

/-- Witness for C3: the one sale of the concrete state c2_db, cancelled,
drops out of both summaries exactly as if erased, and a second cancel
changes nothing. -/
theorem C3_witness :
    (∀ ev, get_sales_summary ev (cancel_sale 1 c2_db).2 =
       get_sales_summary ev
         { c2_db with sales := c2_db.sales.erase ⟨1, 1, 1, 2, 600, 1, false⟩ }) ∧
    (∀ ev, get_product_sales_summary ev (cancel_sale 1 c2_db).2 =
       get_product_sales_summary ev
         { c2_db with sales := c2_db.sales.erase ⟨1, 1, 1, 2, 600, 1, false⟩ }) ∧
    (cancel_sale 1 (cancel_sale 1 c2_db).2).2 = (cancel_sale 1 c2_db).2 :=
  C3_cancel_excludes_sale_from_summaries 1 c2_db ⟨1, 1, 1, 2, 600, 1, false⟩
    (by decide) rfl rfl (by decide)

end PosSys

namespace PosSys

/-! ## C6 -/

/-- C6: the createEvent flow validates before any storage mutation — with an
empty (stripped) name or a date that fails the calendar validation it
reports the validation failure and returns the database untouched; on valid
input it returns the identity of the newly created event, which is appended
to the events table. -/
theorem C6_create_event_validates_before_mutation (name date : String)
    (now : Nat) (db : DB) :
    (name.trim = "" ∨ valid_date date.trim = false →
       createEventFlow name date now db =
         (Except.error PosError.validationError, db)) ∧
    (name.trim ≠ "" → valid_date date.trim = true →
       (createEventFlow name date now db).1 = Except.ok db.next_event_id ∧
       (createEventFlow name date now db).2 =
         { db with
             events := db.events ++
               [⟨db.next_event_id, name.trim, date.trim, now⟩],
             next_event_id := db.next_event_id + 1 }) := by
  constructor
  · rintro (h | h)
    · simp [createEventFlow, dialog_validate, h]
    · by_cases hn : name.trim = ""
      · simp [createEventFlow, dialog_validate, hn]
      · simp [createEventFlow, dialog_validate, hn, h]
  · intro hn hd
    simp [createEventFlow, dialog_validate, hn, hd, create_event]

/-! ## C7 -/

theorem cart_staged_qty_nil (pid : Nat) : cart_staged_qty [] pid = 0 := rfl

theorem cart_staged_qty_cons (pid : Nat) (i : CartItem) (rest : List CartItem) :
    cart_staged_qty (i :: rest) pid =
      (if i.product_id = pid then i.quantity else 0) +
        cart_staged_qty rest pid := by
  by_cases h : i.product_id = pid
  · simp [cart_staged_qty, List.filter_cons, h]
  · simp [cart_staged_qty, List.filter_cons, h]

/-- Merging adds the new quantity to the staged quantity of that product. -/
theorem cart_merge_staged_self (pid : Nat) (name : String) (price qty : Int) :
    ∀ cart : List CartItem,
      cart_staged_qty (cart_merge pid name price qty cart) pid =
        cart_staged_qty cart pid + qty := by
  intro cart
  induction cart with
  | nil =>
    simp [cart_merge, cart_staged_qty_cons, cart_staged_qty_nil]
  | cons i rest ih =>
    by_cases h : i.product_id = pid
    · simp only [cart_merge, if_pos h]
      rw [cart_staged_qty_cons, cart_staged_qty_cons]
      simp only [h]
      simp
      omega
    · simp only [cart_merge, if_neg h]
      rw [cart_staged_qty_cons, cart_staged_qty_cons, ih]
      omega

/-- Merging one product's line leaves every other product's staged quantity
unchanged. -/
theorem cart_merge_staged_other (pid : Nat) (name : String) (price qty : Int)
    (q : Nat) (hq : q ≠ pid) :
    ∀ cart : List CartItem,
      cart_staged_qty (cart_merge pid name price qty cart) q =
        cart_staged_qty cart q := by
  intro cart
  have hqp : pid ≠ q := fun h => hq h.symm
  induction cart with
  | nil =>
    simp only [cart_merge]
    rw [cart_staged_qty_cons, cart_staged_qty_nil]
    simp [hqp]
  | cons i rest ih =>
    by_cases h : i.product_id = pid
    · simp only [cart_merge, if_pos h]
      rw [cart_staged_qty_cons, cart_staged_qty_cons]
      simp only [h]
      simp [hqp]
    · simp only [cart_merge, if_neg h]
      rw [cart_staged_qty_cons, cart_staged_qty_cons, ih]

/-- The product ids after a merge: unchanged when the product already has a
line, the new id appended otherwise. -/
theorem cart_merge_map_product_id (pid : Nat) (name : String)
    (price qty : Int) :
    ∀ cart : List CartItem,
      (cart_merge pid name price qty cart).map CartItem.product_id =
        if (cart.any fun i => i.product_id == pid) = true then
          cart.map CartItem.product_id
        else cart.map CartItem.product_id ++ [pid] := by
  intro cart
  induction cart with
  | nil => simp [cart_merge]
  | cons i rest ih =>
    by_cases h : i.product_id = pid
    · simp [cart_merge, h, List.any_cons]
    · simp only [cart_merge, if_neg h, List.map_cons, List.any_cons, ih]
      by_cases h2 : (rest.any fun i => i.product_id == pid) = true
      · simp [h, h2]
      · simp [h, h2]

/-- A merge keeps the at-most-one-line-per-product invariant. -/
theorem cart_merge_nodup (pid : Nat) (name : String) (price qty : Int)
    (cart : List CartItem) (h : (cart.map CartItem.product_id).Nodup) :
    ((cart_merge pid name price qty cart).map CartItem.product_id).Nodup := by
  rw [cart_merge_map_product_id]
  split
  · exact h
  · next hany =>
    simp only [Bool.not_eq_true] at hany
    rw [List.nodup_append]
    refine ⟨h, List.nodup_singleton pid, ?_⟩
    intro x hx hx2
    rw [List.mem_singleton] at hx2
    rcases List.mem_map.mp hx with ⟨i, hi, hipid⟩
    apply List.any_eq_false.mp hany i hi
    simp [hipid, hx2]

/-- With no existing line for the product, a merge appends the new line. -/
theorem cart_merge_absent (pid : Nat) (name : String) (price qty : Int) :
    ∀ cart : List CartItem, (∀ i ∈ cart, i.product_id ≠ pid) →
      cart_merge pid name price qty cart =
        cart ++ [⟨pid, name, price, qty⟩] := by
  intro cart
  induction cart with
  | nil => intro _; rfl
  | cons i rest ih =>
    intro h
    simp only [cart_merge, if_neg (h i (List.mem_cons_self i rest)),
      List.cons_append]
    rw [ih fun j hj => h j (List.mem_cons_of_mem i hj)]

/-- With an existing line for the product, a merge keeps the cart's length:
no second line for the same product is created. -/
theorem cart_merge_length_present (pid : Nat) (name : String)
    (price qty : Int) (cart : List CartItem)
    (h : (cart.any fun i => i.product_id == pid) = true) :
    (cart_merge pid name price qty cart).length = cart.length := by
  have hmap := cart_merge_map_product_id pid name price qty cart
  rw [if_pos h] at hmap
  calc (cart_merge pid name price qty cart).length
      = ((cart_merge pid name price qty cart).map CartItem.product_id).length :=
        (List.length_map _ _).symm
    _ = (cart.map CartItem.product_id).length := by rw [hmap]
    _ = cart.length := List.length_map _ _

/-- C7: add_to_cart rejects a non-positive quantity with the validation
error; when the staged quantity plus the new quantity exceeds the product's
stock it fails with the insufficient-stock error carrying that stock (and,
returning an error, leaves the cart unchanged); otherwise it merges: the
product's staged quantity grows by exactly the new quantity, all other
products' staged quantities are untouched, at most one line per product is
kept (a cart with distinct product ids stays distinct and does not grow when
the product already has a line), and a product without a line gets one
appended. -/
theorem C7_add_to_cart_spec (cart : List CartItem) (pid : Nat)
    (name : String) (price stock qty : Int) :
    (qty ≤ 0 → add_to_cart cart pid name price stock qty =
       Except.error CartError.validationError) ∧
    (0 < qty → stock < cart_staged_qty cart pid + qty →
       add_to_cart cart pid name price stock qty =
         Except.error (CartError.insufficientStock stock)) ∧
    (0 < qty → cart_staged_qty cart pid + qty ≤ stock →
       add_to_cart cart pid name price stock qty =
         Except.ok (cart_merge pid name price qty cart) ∧
       cart_staged_qty (cart_merge pid name price qty cart) pid =
         cart_staged_qty cart pid + qty ∧
       (∀ q, q ≠ pid →
          cart_staged_qty (cart_merge pid name price qty cart) q =
            cart_staged_qty cart q) ∧
       ((cart.map CartItem.product_id).Nodup →
          ((cart_merge pid name price qty cart).map CartItem.product_id).Nodup) ∧
       ((∀ i ∈ cart, i.product_id ≠ pid) →
          cart_merge pid name price qty cart =
            cart ++ [⟨pid, name, price, qty⟩]) ∧
       ((cart.any fun i => i.product_id == pid) = true →
          (cart_merge pid name price qty cart).length = cart.length)) := by
  refine ⟨?_, ?_, ?_⟩
  · intro h
    simp [add_to_cart, h]
  · intro h1 h2
    unfold add_to_cart
    rw [if_neg (by omega), if_pos h2]
  · intro h1 h2
    refine ⟨?_, cart_merge_staged_self pid name price qty cart,
      fun q hq => cart_merge_staged_other pid name price qty q hq cart,
      cart_merge_nodup pid name price qty cart,
      cart_merge_absent pid name price qty cart,
      cart_merge_length_present pid name price qty cart⟩
    unfold add_to_cart
    rw [if_neg (by omega), if_neg (by omega)]

end PosSys

namespace PosSys

/-! ## C8 -/

instance : IsTotal SummaryRow rowOrder where
  total a b := by
    unfold rowOrder
    rcases lt_trichotomy a.total_sales b.total_sales with h | h | h
    · exact Or.inr (Or.inl h)
    · rcases le_total a.name b.name with hn | hn
      · exact Or.inl (Or.inr ⟨h, hn⟩)
      · exact Or.inr (Or.inr ⟨h.symm, hn⟩)
    · exact Or.inl (Or.inl h)

instance : IsTrans SummaryRow rowOrder where
  trans a b c hab hbc := by
    unfold rowOrder at hab hbc ⊢
    rcases hab with h1 | ⟨h1, h1n⟩
    · rcases hbc with h2 | ⟨h2, h2n⟩
      · exact Or.inl (h2.trans h1)
      · exact Or.inl (h2 ▸ h1)
    · rcases hbc with h2 | ⟨h2, h2n⟩
      · exact Or.inl (by rw [h1]; exact h2)
      · exact Or.inr ⟨h1.trans h2, h1n.trans h2n⟩

/-- C8: get_product_sales_summary returns exactly one aggregate row per
product of the event (a permutation of the per-product aggregates over
non-cancelled sales), sorted by revenue descending and then name ascending,
and a product all of whose referencing sales are cancelled (in particular
one with no sales) appears with quantitySold = 0 and revenue = 0. -/
theorem C8_product_summary_rows_sorted (ev : Nat) (db : DB) :
    (get_product_sales_summary ev db).Perm
      ((db.products.filter fun p => p.event_id == ev).map (product_row db)) ∧
    List.Sorted rowOrder (get_product_sales_summary ev db) ∧
    ∀ p ∈ db.products, p.event_id = ev →
      (∀ s ∈ db.sales, s.product_id = p.id → s.cancelled = true) →
      (⟨p.name, 0, 0, p.price⟩ : SummaryRow) ∈
        get_product_sales_summary ev db := by
  refine ⟨List.perm_insertionSort rowOrder _,
    List.sorted_insertionSort rowOrder _, ?_⟩
  intro p hp hev hall
  have hrow : product_row db p = ⟨p.name, 0, 0, p.price⟩ := by
    unfold product_row
    have hnil :
        (db.sales.filter fun s => s.product_id == p.id && !s.cancelled) = [] := by
      rw [List.filter_eq_nil_iff]
      intro s hs hq
      rw [Bool.and_eq_true, beq_iff_eq, Bool.not_eq_true'] at hq
      have := hall s hs hq.1
      rw [hq.2] at this
      exact Bool.false_ne_true this
    rw [hnil]
    rfl
  rw [← hrow]
  unfold get_product_sales_summary
  rw [List.mem_insertionSort]
  exact List.mem_map_of_mem _ (List.mem_filter.mpr ⟨hp, by simp [hev]⟩)

/-! ## C9 -/

/-- Inserting an element strictly above every element of the list (none of
them is newer-or-equal) puts it at the head of the stable sort. -/
theorem insertionSort_append_max {α : Type} (r : α → α → Prop)
    [DecidableRel r] (a : α) :
    ∀ l : List α, (∀ b ∈ l, ¬ r b a) →
      ∃ t, List.insertionSort r (l ++ [a]) = a :: t := by
  intro l
  induction l with
  | nil => exact fun _ => ⟨[], rfl⟩
  | cons b l₂ ih =>
    intro h
    obtain ⟨t, ht⟩ := ih fun c hc => h c (List.mem_cons_of_mem b hc)
    refine ⟨List.orderedInsert r b t, ?_⟩
    rw [List.cons_append]
    simp only [List.insertionSort]
    rw [ht]
    simp only [List.orderedInsert]
    rw [if_neg (h b (List.mem_cons_self b l₂))]

/-- Two events created at the same one-second clock reading. -/
def c9_db : DB :=
  (create_event "B" "2024-01-02" 5
    (create_event "A" "2024-01-01" 5 DB.empty).2).2

/-- C9 counterexample: create event A and then event B within the same
clock second (equal created_at).  The newly created event has id 2, yet
get_events returns event 1 first: with tied timestamps ORDER BY
created_at DESC returns rows in rowid order, so the claim that the new
event is always first fails. -/
theorem C9_counterexample_same_second_creation :
    (create_event "B" "2024-01-02" 5
      (create_event "A" "2024-01-01" 5 DB.empty).2).1 = 2 ∧
    (get_events c9_db).head? = some (1, "A", "2024-01-01") := by
  decide

/-- C9 (amended): get_events lists events newest-created first, and the
event just created is the first element of the listing provided its creation
timestamp is strictly later than every existing event's (timestamps have
one-second resolution, so creations in the same second can tie, and a tie is
returned in insertion order). -/
theorem C9_new_event_first_when_clock_advances (name date : String)
    (now : Nat) (db : DB) (hfresh : ∀ e ∈ db.events, e.created_at < now) :
    (get_events (create_event name date now db).2).head? =
      some ((create_event name date now db).1, name, date) := by
  have hmax : ∀ b ∈ db.events,
      ¬ eventNewer b ⟨db.next_event_id, name, date, now⟩ := by
    intro b hb hle
    exact Nat.not_le.mpr (hfresh b hb) hle
  obtain ⟨t, ht⟩ := insertionSort_append_max eventNewer
    (⟨db.next_event_id, name, date, now⟩ : Event) db.events hmax
  show ((List.insertionSort eventNewer
      (db.events ++ [(⟨db.next_event_id, name, date, now⟩ : Event)])).map
        fun e => (e.id, e.name, e.date)).head? =
    some (db.next_event_id, name, date)
  rw [ht]
  rfl

/-- The one-event state used to witness C9. -/
def c9_base : DB := (create_event "A" "2024-01-01" 0 DB.empty).2

/-- Witness for C9: with the clock strictly advanced past the existing
event's timestamp, the new event is listed first. -/
theorem C9_witness :
    (get_events (create_event "B" "2024-01-02" 1 c9_base).2).head? =
      some ((create_event "B" "2024-01-02" 1 c9_base).1, "B", "2024-01-02") :=
  C9_new_event_first_when_clock_advances "B" "2024-01-02" 1 c9_base (by decide)

end PosSys

namespace PosSys

/-! ## C10 -/

/-- When every sale referencing the product is cancelled, delete_product
reaches the DELETE: the result is the row-count flag and the products table
filtered on the id. -/
theorem delete_product_no_active (pid : Nat) (db : DB)
    (hcan : ∀ s ∈ db.sales, s.product_id = pid → s.cancelled = true) :
    delete_product pid db =
      (decide ((db.products.filter fun p => p.id != pid).length <
         db.products.length),
       { db with products := db.products.filter fun p => p.id != pid }) := by
  have hc : ¬ (db.sales.filter fun s =>
      s.product_id == pid && !s.cancelled).length > 0 := by
    intro hc
    obtain ⟨s, hs⟩ := List.exists_mem_of_length_pos hc
    rw [List.mem_filter] at hs
    obtain ⟨hsm, hsq⟩ := hs
    rw [Bool.and_eq_true, beq_iff_eq, Bool.not_eq_true'] at hsq
    have hcontra := hcan s hsm hsq.1
    rw [hsq.2] at hcontra
    exact Bool.false_ne_true hcontra
  simp only [delete_product, if_neg hc]

theorem mem_of_mem_sqlLimit {α : Type} (limit : Int) (l : List α) (x : α)
    (h : x ∈ sqlLimit limit l) : x ∈ l := by
  unfold sqlLimit at h
  split at h
  · exact h
  · exact List.take_subset _ _ h

/-- C10: a product every one of whose referencing sales is cancelled can be
deleted — delete_product returns true — after which the cancelled sales rows
still sit in the sales table, but none of them appears in get_recent_sales
for any event and any limit, because the join keeps only sales whose product
row still exists. -/
theorem C10_delete_product_with_cancelled_history (pid : Nat) (db : DB)
    (p : Product) (hp : p ∈ db.products) (hpid : p.id = pid)
    (hcan : ∀ s ∈ db.sales, s.product_id = pid → s.cancelled = true)
    (hnodup : (db.sales.map Sale.id).Nodup) :
    (delete_product pid db).1 = true ∧
    (delete_product pid db).2.sales = db.sales ∧
    ∀ ev lim, ∀ s ∈ db.sales, s.product_id = pid →
      s.id ∉ (get_recent_sales ev lim (delete_product pid db).2).map
        fun r => r.1 := by
  rw [delete_product_no_active pid db hcan]
  refine ⟨?_, rfl, ?_⟩
  · rw [decide_eq_true_eq]
    exact List.length_filter_lt_length_iff_exists.mpr ⟨p, hp, by simp [hpid]⟩
  · intro ev lim s hs hspid hmem
    rcases List.mem_map.mp hmem with ⟨r, hr, hrid⟩
    have hr2 := mem_of_mem_sqlLimit lim _ r hr
    rcases List.mem_filterMap.mp hr2 with ⟨t, ht, hft⟩
    rw [List.mem_insertionSort, List.mem_filter] at ht
    obtain ⟨htmem, -⟩ := ht
    rcases Option.map_eq_some'.mp hft with ⟨p2, hfind, hrdef⟩
    have hp2mem := List.mem_of_find?_eq_some hfind
    have hp2q := List.find?_some hfind
    rw [beq_iff_eq] at hp2q
    have htid : t.id = s.id := by
      rw [← hrdef] at hrid
      exact hrid
    have hts : t = s :=
      List.inj_on_of_nodup_map hnodup htmem hs htid
    rw [List.mem_filter] at hp2mem
    obtain ⟨-, hp2keep⟩ := hp2mem
    rw [bne_iff_ne] at hp2keep
    apply hp2keep
    rw [hp2q, hts, hspid]

/-- The state in which product 1's only sale is cancelled. -/
def c10_db : DB := (cancel_sale 1 c2_db).2

/-- Witness for C10: product 1 of the concrete state, whose one sale is
cancelled, deletes successfully; the sales table is untouched and the
cancelled sale (id 1) is absent from get_recent_sales at event 1, limit 20. -/
theorem C10_witness :
    (delete_product 1 c10_db).1 = true ∧
    (delete_product 1 c10_db).2.sales = c10_db.sales ∧
    (1 : Nat) ∉ (get_recent_sales 1 20 (delete_product 1 c10_db).2).map
      (fun r => r.1) := by
  have h := C10_delete_product_with_cancelled_history 1 c10_db
    ⟨1, 1, "Sticker", 3, 300⟩ (by decide) rfl (by decide) (by decide)
  exact ⟨h.1, h.2.1, h.2.2 1 20 ⟨1, 1, 1, 2, 600, 1, true⟩ (by decide) rfl⟩

end PosSys
